import Mathlib

/-!
Verification of the conversational session subsystem of the
Context7-MCP-RAG-Agent repository: a shallow embedding of the session
orchestrator (`src/agent.py`), the history store contract (`src/history.py`,
modelled from the specification where the module is absent from the source
tree), and the utility functions (`src/utils.py`), together with theorems
settling the specification's claims about them.
-/

set_option maxRecDepth 4000

/-- A completed conversational turn: user text, assistant text, timestamp.
Mirrors the durable record shape exercised by `tests/test_history.py`
(`messages[0]["user"]`) and the spec data model `(user_text, assistant_text,
timestamp)`. -/
structure Turn where
  user : String
  assistant : String
  timestamp : String
deriving DecidableEq, Repr

/-- A history mapping: conversation key to ordered sequence of turns,
modelled as an association list (Python `dict` with insertion order). -/
abbrev HistoryMap := List (String × List Turn)

/-- Python-dict style key update: replace the value at an existing key in
place, otherwise append the new key at the end. -/
def setConv : HistoryMap → String → List Turn → HistoryMap
  | [], cid, ts => [(cid, ts)]
  | (k, v) :: rest, cid, ts =>
      if k = cid then (k, ts) :: rest else (k, v) :: setConv rest cid ts

/-- Modelled from the spec: the History Store's state. `mem` is the
in-memory committed mapping, `disk` the durable storage content, and
`pending` the per-conversation half-open user texts kept only in memory by
the eager-pairing policy of spec §4.1/§9 (`history.py` is absent from the
source tree). -/
structure HistoryState where
  pending : List (String × String)
  mem : HistoryMap
  disk : HistoryMap
deriving DecidableEq, Repr

/-- The empty, freshly-loaded store. -/
def initHistory : HistoryState := ⟨[], [], []⟩

/-- `get_messages(conversation_id)`: the ordered turns for that key, or the
empty sequence for an unknown key. Read-only. -/
def get_messages (s : HistoryState) (cid : String) : List Turn :=
  (s.mem.lookup cid).getD []

/-- Modelled from the spec: `add_message(conversation_id, role, text)` of the
absent `history.py`, under the eager-pairing policy of spec §4.1/§9: a
`user` write buffers the half-open turn in memory only; the following
`assistant` write pairs it into one Turn record, commits it to the mapping
and flushes the whole mapping to durable storage as one atomic append. -/
def add_message (s : HistoryState) (cid role text ts : String) : HistoryState :=
  if role = "user" then
    { s with pending := (cid, text) :: s.pending.filter (fun p => p.1 ≠ cid) }
  else if role = "assistant" then
    match s.pending.lookup cid with
    | some u =>
        let mem2 := setConv s.mem cid ((s.mem.lookup cid).getD [] ++ [⟨u, text, ts⟩])
        { pending := s.pending.filter (fun p => p.1 ≠ cid), mem := mem2, disk := mem2 }
    | none => s
  else s

/-- Result of one awaited run of the external retrieval-and-synthesis
collaborator: either the single synthesized text blob, or a raised fault
(modelled as a value, mirroring Python exception propagation into the
orchestrator's `except` clause). -/
inductive RunResult where
  | ok (data : String)
  | err (msg : String)
deriving DecidableEq, Repr

/-- The fixed literal refusal string of spec §6 and the FAILURE PROTOCOL of
`AGENT_SYSTEM_PROMPT` in `src/agent.py`. -/
def REFUSAL : String :=
  "I could not find any relevant information in the Context7 knowledge base to answer your question."

/-- The text of the system prompt of `src/agent.py` lines 20-29, up to the
opening quote of the exact refusal phrase of the FAILURE PROTOCOL rule. -/
def promptHead : String :=
  "\nYou are a world-class AI research assistant for software developers named Context7.\n\n## CORE DIRECTIVE\nYour SOLE PURPOSE is to provide answers by exclusively using information retrieved from the attached `search` tool, which connects to an official, up-to-date knowledge base. You are FORBIDDEN from using your own internal, pre-trained knowledge, as it is considered unreliable for this task.\n\n## RULES OF ENGAGEMENT\n1.  **TOOL-FIRST MENTALITY:** For any user question that is not a simple greeting, you MUST ALWAYS call the `search` tool with a concise query to gather context before formulating an answer.\n2.  **GROUNDED SYNTHESIS:** You MUST synthesize your final answer using ONLY the `documents` and `content` provided in the tool\x27s output. Do not add any information not present in the retrieved context. Your answer should be a direct, clear synthesis of the provided materials.\n3.  **FAILURE PROTOCOL:** If the `search` tool returns no relevant documents, an error, or if the context is insufficient, you MUST respond with the exact phrase: \""

/-- The text of the system prompt of `src/agent.py` lines 29-33, from the
closing quote of the exact refusal phrase to the end. -/
def promptTail : String :=
  "\" Do not attempt to answer from memory.\n\n## RESPONSE FORMAT\nFormat your responses in clear, readable markdown. Use code blocks for code examples.\n"

/-- The system prompt of `src/agent.py` lines 20-33: the source bytes are
exactly `promptHead`, the quoted refusal phrase, then `promptTail`. -/
def AGENT_SYSTEM_PROMPT : String :=
  promptHead ++ REFUSAL ++ promptTail

/-- The structured outcome dictionary returned by `Context7Agent.chat`. -/
structure ChatOutcome where
  type : String
  data : String
  timestamp : String
deriving DecidableEq, Repr

/-- One retrieval-augmented completion request issued to the external
collaborator: the system-level instruction attached at `Agent` construction,
the new utterance, and the `message_history` supplied with it. -/
structure Request where
  system : String
  message : String
  history : List Turn
deriving DecidableEq, Repr

/-- The full observable effect of one `chat` call: the returned outcome, the
History Store state after the call, and the log of requests issued to the
external collaborator during the call. -/
structure ChatResult where
  outcome : ChatOutcome
  state : HistoryState
  requests : List Request
deriving DecidableEq, Repr

/-- `Context7Agent.chat` of `src/agent.py` lines 58-90. The external
collaborator (`self.agent.run`) is an oracle parameter; the wall clock
(`datetime.now().isoformat()`) is the `now` parameter. The `try` body reads
the history, issues exactly one run, and on success appends the user and
assistant halves via `add_message`; the `except Exception` clause converts
any fault into the error-shaped outcome without touching the store. -/
def chat (run : String → List Turn → RunResult) (now : String)
    (s : HistoryState) (message : String) (conversation_id : String) : ChatResult :=
  let message_history := get_messages s conversation_id
  let req : Request := ⟨AGENT_SYSTEM_PROMPT, message, message_history⟩
  match run message message_history with
  | .ok full_response =>
      let s1 := add_message s conversation_id "user" message now
      let s2 := add_message s1 conversation_id "assistant" full_response now
      ⟨⟨"complete", full_response, now⟩, s2, [req]⟩
  | .err e =>
      ⟨⟨"error", e, now⟩, s, [req]⟩

/-- Outcome of the retrieval step inside the external collaborator: a list
of retrieved documents, or a tool failure. -/
inductive Retrieval where
  | docs (ds : List String)
  | fail (e : String)

/-- Modelled from the spec: the external collaborator (retrieval tool plus
completion provider, out of the repository's scope) honoring the FAILURE
PROTOCOL of `AGENT_SYSTEM_PROMPT`: when the `search` tool returns no
documents, an error, or insufficient context, it responds with the exact
refusal phrase; otherwise it synthesizes from the retrieved documents. -/
def collaborator (retrieve : String → List Turn → Retrieval)
    (sufficient : List String → Bool) (synth : List String → String) :
    String → List Turn → RunResult := fun msg hist =>
  match retrieve msg hist with
  | .fail _ => .ok REFUSAL
  | .docs ds => if ds.isEmpty || !(sufficient ds) then .ok REFUSAL else .ok (synth ds)

/-- The retrieval step yields nothing relevant: empty, erroneous, or
insufficient retrieved context. -/
def nothingRelevant (retrieve : String → List Turn → Retrieval)
    (sufficient : List String → Bool) (msg : String) (hist : List Turn) : Bool :=
  match retrieve msg hist with
  | .fail _ => true
  | .docs ds => ds.isEmpty || !(sufficient ds)

/-- A JSON-like value, the durable history file's structured content. -/
inductive Json where
  | str (s : String)
  | arr (xs : List Json)
  | obj (fields : List (String × Json))

/-- Option-valued traversal used by the decoder: fails if any element
fails. -/
def optMapM (f : α → Option β) : List α → Option (List β)
  | [] => some []
  | a :: as =>
    match f a with
    | none => none
    | some b =>
      match optMapM f as with
      | none => none
      | some bs => some (b :: bs)

/-- Modelled from the spec: serialization of one turn record into the
durable format `{user text, assistant text, timestamp}` of spec §6. -/
def encodeTurn (t : Turn) : Json :=
  .obj [("user", .str t.user), ("assistant", .str t.assistant), ("timestamp", .str t.timestamp)]

/-- Modelled from the spec: deserialization of one turn record; any other
shape is malformed. -/
def decodeTurn : Json → Option Turn
  | .obj [("user", .str u), ("assistant", .str a), ("timestamp", .str ts)] => some ⟨u, a, ts⟩
  | _ => none

/-- Modelled from the spec: deserialization of one conversation's ordered
turn list. -/
def decodeConv : Json → Option (List Turn)
  | .arr xs => optMapM decodeTurn xs
  | _ => none

/-- Modelled from the spec: `save()` of the absent `history.py` — the whole
mapping, conversation key to ordered list of turn records, as one JSON
object. -/
def encodeHistory (m : HistoryMap) : Json :=
  .obj (m.map fun p => (p.1, .arr (p.2.map encodeTurn)))

/-- Modelled from the spec: parsing the durable history file back into the
in-memory mapping; `none` on any malformed shape. -/
def decodeHistory : Json → Option HistoryMap
  | .obj fs => optMapM (fun p => (decodeConv p.2).map fun ts => (p.1, ts)) fs
  | _ => none

/-- The observable states of the durable storage location at load time. -/
inductive FileState where
  | absent
  | unreadable
  | empty
  | content (j : Json)

/-- Modelled from the spec: `load()` of the absent `history.py` — reads
durable storage into memory; an absent, empty, or unreadable location, or
content that fails to decode, initializes the empty mapping rather than
failing (spec §4.1). Total by construction: no exception escapes. -/
def load : FileState → HistoryMap
  | .absent => []
  | .unreadable => []
  | .empty => []
  | .content j => (decodeHistory j).getD []

/-- Python `str.lower()` (ASCII model): lowercase every character. -/
def pyLower (s : String) : String :=
  String.mk (s.data.map Char.toLower)

/-- Worker for `splitWs`: scans the characters, accumulating the current
word in reverse; whitespace ends the current word, and empty pieces are
never produced. -/
def splitWsAux : List Char → List Char → List String
  | [], acc => if acc = [] then [] else [String.mk acc.reverse]
  | c :: cs, acc =>
      if c.isWhitespace then
        if acc = [] then splitWsAux cs []
        else String.mk acc.reverse :: splitWsAux cs []
      else splitWsAux cs (c :: acc)

/-- Python `str.split()` with no argument: split on whitespace runs,
discarding empty pieces. -/
def splitWs (s : String) : List String :=
  splitWsAux s.data []

/-- Python `needle in hay` on strings: substring containment. -/
def strContains (needle hay : String) : Bool :=
  decide (needle.data <:+: hay.data)

/-- `fuzzy_match(query, text)` of `src/utils.py` lines 40-46: the fraction
of lowercased query words occurring as substrings of some lowercased text
word; `0` when the query has no words. -/
def fuzzy_match (query text : String) : ℚ :=
  let query_words := splitWs (pyLower query)
  let text_words := splitWs (pyLower text)
  let nMatches := (query_words.filter fun qw => text_words.any fun tw => strContains qw tw).length
  if query_words.isEmpty then 0 else (nMatches : ℚ) / (query_words.length : ℚ)

/-- The character class kept by `re.sub(r'[^\w\s-]', '', ...)` in
`sanitize_filename`: word characters, whitespace, and hyphen (ASCII model
of Python's `\w` and `\s`). -/
def keepChar (c : Char) : Bool :=
  c.isAlphanum || c = '_' || c.isWhitespace || c = '-'

/-- Leading-whitespace removal. -/
def stripL (l : List Char) : List Char := l.dropWhile Char.isWhitespace

/-- Trailing-whitespace removal. -/
def stripR (l : List Char) : List Char := (l.reverse.dropWhile Char.isWhitespace).reverse

/-- Python `str.strip()`: drop leading and trailing whitespace. -/
def stripChars (l : List Char) : List Char := stripR (stripL l)

/-- `sanitize_filename(filename)` of `src/utils.py` lines 19-21:
`re.sub(r'[^\w\s-]', '', filename).strip()`. -/
def sanitize_filename (filename : String) : String :=
  String.mk (stripChars (filename.data.filter keepChar))

/-- A concrete always-succeeding collaborator oracle, for counterexamples
and witnesses. -/
def okOracle : String → List Turn → RunResult := fun _ _ => .ok "X is a placeholder name."

/-- A concrete always-failing collaborator oracle, for witnesses. -/
def errOracle : String → List Turn → RunResult := fun _ _ => .err "network failure"

/-- A retrieval step that always comes back empty, for witnesses. -/
def emptyRetrieve : String → List Turn → Retrieval := fun _ _ => .docs []

/-- A sufficiency judgment that accepts everything, for witnesses. -/
def allSufficient : List String → Bool := fun _ => true

/-- A constant synthesizer, for witnesses. -/
def constSynth : List String → String := fun _ => "synthesized answer"

/- ------------------------------------------------------------------ -/
/- Helper lemmas -/
/- ------------------------------------------------------------------ -/

theorem optMapM_map (f : β → Option α) (g : α → β) (l : List α)
    (h : ∀ a ∈ l, f (g a) = some a) : optMapM f (l.map g) = some l := by
  induction l with
  | nil => rfl
  | cons a t ih =>
      have ha := h a (List.mem_cons_self a t)
      have ht := ih fun b hb => h b (List.mem_cons_of_mem a hb)
      simp [optMapM, ha, ht]

theorem decodeTurn_encodeTurn (t : Turn) : decodeTurn (encodeTurn t) = some t := rfl

theorem dropWhile_head?_false (p : α → Bool) (l : List α) (c : α)
    (h : (l.dropWhile p).head? = some c) : p c = false := by
  induction l with
  | nil => simp [List.dropWhile] at h
  | cons a t ih =>
      rw [List.dropWhile_cons] at h
      cases hpa : p a
      · rw [hpa] at h
        simp at h
        rw [← h]
        exact hpa
      · rw [hpa] at h
        simp at h
        exact ih h

theorem dropWhile_eq_self_of_head (p : α → Bool) (l : List α)
    (h : ∀ c, l.head? = some c → p c = false) : l.dropWhile p = l := by
  cases l with
  | nil => rfl
  | cons a t =>
      rw [List.dropWhile_cons, h a rfl]
      simp

theorem stripR_isPre (l : List Char) : stripR l <+: l := by
  have h1 : l.reverse.dropWhile Char.isWhitespace <:+ l.reverse :=
    List.dropWhile_suffix Char.isWhitespace
  have h2 := List.reverse_prefix.mpr h1
  rwa [List.reverse_reverse] at h2

theorem head?_of_isPre {l₁ l₂ : List α} (h : l₁ <+: l₂) (c : α)
    (hc : l₁.head? = some c) : l₂.head? = some c := by
  obtain ⟨t, ht⟩ := h
  subst ht
  cases l₁ with
  | nil => cases hc
  | cons a s => simpa using hc

theorem stripChars_headOK (l : List Char) (c : Char)
    (h : (stripChars l).head? = some c) : c.isWhitespace = false :=
  dropWhile_head?_false Char.isWhitespace l c
    (head?_of_isPre (stripR_isPre (stripL l)) c h)

theorem stripChars_lastOK (l : List Char) (c : Char)
    (h : (stripChars l).getLast? = some c) : c.isWhitespace = false := by
  unfold stripChars stripR at h
  rw [List.getLast?_reverse] at h
  exact dropWhile_head?_false Char.isWhitespace _ c h

theorem stripR_stripR (l : List Char) : stripR (stripR l) = stripR l := by
  show ((stripR l).reverse.dropWhile Char.isWhitespace).reverse = stripR l
  unfold stripR
  rw [List.reverse_reverse]
  rw [dropWhile_eq_self_of_head Char.isWhitespace _
    (fun c hc => dropWhile_head?_false Char.isWhitespace _ c hc)]

theorem stripChars_idem (l : List Char) : stripChars (stripChars l) = stripChars l := by
  have h1 : stripL (stripChars l) = stripChars l := by
    show (stripChars l).dropWhile Char.isWhitespace = stripChars l
    exact dropWhile_eq_self_of_head Char.isWhitespace _
      (fun c hc => stripChars_headOK l c hc)
  show stripR (stripL (stripChars l)) = stripChars l
  rw [h1]
  exact stripR_stripR (stripL l)

theorem stripChars_subset (l : List Char) : stripChars l ⊆ l := by
  have h1 : List.Sublist (stripChars l) (stripL l) := by
    have h := (List.dropWhile_sublist (l := (stripL l).reverse) Char.isWhitespace).reverse
    rwa [List.reverse_reverse] at h
  have h2 : List.Sublist (stripL l) l := List.dropWhile_sublist Char.isWhitespace
  exact (h1.trans h2).subset

theorem sanitize_data (s : String) :
    (sanitize_filename s).data = stripChars (s.data.filter keepChar) := rfl

theorem sanitize_all_keep (s : String) :
    ∀ c ∈ (sanitize_filename s).data, keepChar c = true := by
  intro c hc
  rw [sanitize_data] at hc
  have := stripChars_subset (s.data.filter keepChar) hc
  exact (List.mem_filter.mp this).2

theorem lookup_setConv (m : HistoryMap) (cid : String) (ts : List Turn) :
    (setConv m cid ts).lookup cid = some ts := by
  induction m with
  | nil => simp [setConv, List.lookup]
  | cons p rest ih =>
      obtain ⟨k, v⟩ := p
      by_cases hk : k = cid
      · subst hk
        simp [setConv, List.lookup]
      · have hbeq : (cid == k) = false := beq_eq_false_iff_ne.mpr (Ne.symm hk)
        simp [setConv, hk, List.lookup, hbeq, ih]

theorem refusal_in_prompt : REFUSAL.data <:+: AGENT_SYSTEM_PROMPT.data := by
  have h : AGENT_SYSTEM_PROMPT.data = promptHead.data ++ REFUSAL.data ++ promptTail.data := by
    simp [AGENT_SYSTEM_PROMPT, String.data_append]
  rw [h]
  exact List.infix_append _ _ _

theorem add_message_pair (s : HistoryState) (cid msg resp now : String) :
    (add_message s cid "user" msg now).disk = s.disk ∧
    (add_message s cid "user" msg now).mem = s.mem ∧
    (add_message (add_message s cid "user" msg now) cid "assistant" resp now).mem
      = setConv s.mem cid (get_messages s cid ++ [⟨msg, resp, now⟩]) ∧
    (add_message (add_message s cid "user" msg now) cid "assistant" resp now).disk
      = setConv s.mem cid (get_messages s cid ++ [⟨msg, resp, now⟩]) := by
  unfold add_message
  simp [List.lookup, get_messages]

theorem get_messages_after_pair (s : HistoryState) (cid msg resp now : String) :
    get_messages (add_message (add_message s cid "user" msg now) cid "assistant" resp now) cid
      = get_messages s cid ++ [⟨msg, resp, now⟩] := by
  unfold get_messages
  rw [(add_message_pair s cid msg resp now).2.2.1, lookup_setConv]
  rfl

/- ------------------------------------------------------------------ -/
/- Claims -/
/- ------------------------------------------------------------------ -/

/-- C1 counterexample: a `chat` call with empty prior turns and a
successful grounded retrieval returns an outcome whose discriminator field
is `"complete"`, not `"success"` as the claim states. -/
theorem chat_success_type_counterexample :
    (chat okOracle "2025-01-01T00:00:00" initHistory "What is X?" "conv1").outcome.type
      ≠ "success" ∧
    (chat okOracle "2025-01-01T00:00:00" initHistory "What is X?" "conv1").outcome.type
      = "complete" := by
  constructor <;> decide

/-- C1 (amended): for every call whose retrieval-augmented completion
succeeds, `chat` returns a structured success outcome whose discriminator
field equals `"complete"`, whose data field is the synthesized response
text, and which carries a timestamp; the new turn is persisted, so
`get_messages` afterwards ends with the pair `(message, response)`. -/
theorem chat_success_outcome (run : String → List Turn → RunResult)
    (now : String) (s : HistoryState) (msg cid resp : String)
    (h : run msg (get_messages s cid) = .ok resp) :
    (chat run now s msg cid).outcome = ⟨"complete", resp, now⟩ ∧
    get_messages (chat run now s msg cid).state cid
      = get_messages s cid ++ [⟨msg, resp, now⟩] := by
  simp only [chat, h]
  exact ⟨trivial, get_messages_after_pair s cid msg resp now⟩

/-- C1 witness: the scenario `chat("What is X?", "conv1")` with empty prior
turns and a succeeding oracle, instantiating the amended theorem. -/
theorem chat_success_outcome_witness :
    okOracle "What is X?" (get_messages initHistory "conv1")
        = .ok "X is a placeholder name." ∧
    (chat okOracle "T1" initHistory "What is X?" "conv1").outcome
        = ⟨"complete", "X is a placeholder name.", "T1"⟩ ∧
    get_messages (chat okOracle "T1" initHistory "What is X?" "conv1").state "conv1"
        = [⟨"What is X?", "X is a placeholder name.", "T1"⟩] := by
  have h := chat_success_outcome okOracle "T1" initHistory "What is X?" "conv1"
    "X is a placeholder name." rfl
  exact ⟨rfl, h.1, h.2⟩

/-- C2: if the retrieval/completion step fails, no write to the History
Store occurs during the call — the store state is unchanged, so
`get_messages` returns the same sequence as before — and `chat` returns a
structured error outcome. -/
theorem chat_failure_no_write (run : String → List Turn → RunResult)
    (now : String) (s : HistoryState) (msg cid e : String)
    (h : run msg (get_messages s cid) = .err e) :
    (chat run now s msg cid).state = s ∧
    get_messages (chat run now s msg cid).state cid = get_messages s cid ∧
    (chat run now s msg cid).outcome = ⟨"error", e, now⟩ := by
  simp only [chat, h]
  exact ⟨trivial, trivial, trivial⟩

/-- C2 witness: a concrete failing oracle leaves a one-turn store exactly
as it was and yields the error outcome. -/
theorem chat_failure_no_write_witness :
    errOracle "hi" (get_messages initHistory "conv1") = .err "network failure" ∧
    (chat errOracle "T2" initHistory "hi" "conv1").state = initHistory ∧
    (chat errOracle "T2" initHistory "hi" "conv1").outcome
      = ⟨"error", "network failure", "T2"⟩ := by
  have h := chat_failure_no_write errOracle "T2" initHistory "hi" "conv1"
    "network failure" rfl
  exact ⟨rfl, h.1, h.2.2⟩

/-- C3: the write of a completed turn is a single atomic append of the
user text and the assistant text together: the user-half `add_message`
leaves durable storage untouched, and the assistant-half commits the full
paired turn in one step — so a failure between "user sent" and "assistant
responded" never leaves a half-written turn in storage. -/
theorem add_message_atomic_turn (s : HistoryState) (cid msg resp now : String)
    (hsync : s.mem = s.disk) :
    (add_message s cid "user" msg now).disk = s.disk ∧
    (add_message (add_message s cid "user" msg now) cid "assistant" resp now).disk
      = setConv s.disk cid (((s.disk.lookup cid).getD []) ++ [⟨msg, resp, now⟩]) := by
  have h := add_message_pair s cid msg resp now
  refine ⟨h.1, ?_⟩
  rw [h.2.2.2]
  unfold get_messages
  rw [hsync]

/-- C3 witness: from the empty synchronized store, the user-half write
leaves the disk empty and the paired commit writes the full turn at once. -/
theorem add_message_atomic_turn_witness :
    initHistory.mem = initHistory.disk ∧
    (add_message initHistory "c" "user" "u1" "T3").disk = initHistory.disk ∧
    (add_message (add_message initHistory "c" "user" "u1" "T3") "c" "assistant" "a1" "T3").disk
      = setConv initHistory.disk "c" (((initHistory.disk.lookup "c").getD []) ++ [⟨"u1", "a1", "T3"⟩]) := by
  have h := add_message_atomic_turn initHistory "c" "u1" "a1" "T3" rfl
  exact ⟨rfl, h.1, h.2⟩

/-- C4: every `chat` call issues exactly one retrieval-augmented completion
request, and the conversational history supplied with it equals exactly the
turns persisted for `conversation_id` at the moment the request is issued —
looked up under that key only, so no turns from any other conversation. -/
theorem chat_single_request (run : String → List Turn → RunResult)
    (now : String) (s : HistoryState) (msg cid : String)
    (hsync : s.mem = s.disk) :
    (chat run now s msg cid).requests
      = [⟨AGENT_SYSTEM_PROMPT, msg, (s.disk.lookup cid).getD []⟩] := by
  cases hr : run msg (get_messages s cid) <;>
    (simp only [chat, hr]; simp only [get_messages, hsync])

/-- C4 witness: a concrete synchronized store produces exactly one request
carrying the persisted history for the key. -/
theorem chat_single_request_witness :
    initHistory.mem = initHistory.disk ∧
    (chat errOracle "T4" initHistory "hello" "conv9").requests
      = [⟨AGENT_SYSTEM_PROMPT, "hello", (initHistory.disk.lookup "conv9").getD []⟩] := by
  exact ⟨rfl, chat_single_request errOracle "T4" initHistory "hello" "conv9" rfl⟩

/-- C5: `chat` returns normally for every input (it is a total function: a
fault of the collaborator is a value of `RunResult`, mirroring the
`except Exception` boundary), its outcome carries the call's timestamp, and
the result is exactly one of the two discriminated shapes: `"complete"`
with the response text, or `"error"` with the fault's description. -/
theorem chat_two_outcome_shapes (run : String → List Turn → RunResult)
    (now : String) (s : HistoryState) (msg cid : String) :
    (chat run now s msg cid).outcome.timestamp = now ∧
    ((∃ resp, run msg (get_messages s cid) = .ok resp ∧
        (chat run now s msg cid).outcome = ⟨"complete", resp, now⟩) ∨
     (∃ e, run msg (get_messages s cid) = .err e ∧
        (chat run now s msg cid).outcome = ⟨"error", e, now⟩)) := by
  cases hr : run msg (get_messages s cid) with
  | ok resp =>
      refine ⟨?_, Or.inl ⟨resp, rfl, ?_⟩⟩ <;> simp only [chat, hr]
  | err e =>
      refine ⟨?_, Or.inr ⟨e, rfl, ?_⟩⟩ <;> simp only [chat, hr]

/-- C6: whenever the retrieval step yields nothing relevant (empty,
erroneous, or insufficient), the call returns a success-shaped outcome
whose payload is byte-for-byte the literal refusal string, and the fixed
system-level instruction — which contains that refusal string verbatim —
accompanies every request sent to the external collaborator. -/
theorem chat_refusal_exact (retrieve : String → List Turn → Retrieval)
    (sufficient : List String → Bool) (synth : List String → String)
    (now : String) (s : HistoryState) (msg cid : String)
    (h : nothingRelevant retrieve sufficient msg (get_messages s cid) = true) :
    (chat (collaborator retrieve sufficient synth) now s msg cid).outcome.type = "complete" ∧
    (chat (collaborator retrieve sufficient synth) now s msg cid).outcome.data = REFUSAL ∧
    (∀ req ∈ (chat (collaborator retrieve sufficient synth) now s msg cid).requests,
        req.system = AGENT_SYSTEM_PROMPT) ∧
    REFUSAL.data <:+: AGENT_SYSTEM_PROMPT.data := by
  have hrun : collaborator retrieve sufficient synth msg (get_messages s cid) = .ok REFUSAL := by
    unfold collaborator
    unfold nothingRelevant at h
    cases hr : retrieve msg (get_messages s cid) with
    | fail e => rfl
    | docs ds =>
        rw [hr] at h
        have hcond : (ds.isEmpty || !(sufficient ds)) = true := h
        show (if (ds.isEmpty || !(sufficient ds)) = true then RunResult.ok REFUSAL
          else RunResult.ok (synth ds)) = RunResult.ok REFUSAL
        rw [if_pos hcond]
  refine ⟨?_, ?_, ?_, refusal_in_prompt⟩
  · simp only [chat, hrun]
  · simp only [chat, hrun]
  · simp only [chat, hrun]
    intro req hreq
    simp at hreq
    rw [hreq]

/-- C6 witness: a retrieval step that comes back empty produces the exact
refusal payload on the concrete scenario. -/
theorem chat_refusal_exact_witness :
    nothingRelevant emptyRetrieve allSufficient "What is Y?" (get_messages initHistory "c6") = true ∧
    (chat (collaborator emptyRetrieve allSufficient constSynth) "T6" initHistory "What is Y?" "c6").outcome.data
      = REFUSAL := by
  have h := chat_refusal_exact emptyRetrieve allSufficient constSynth "T6" initHistory
    "What is Y?" "c6" rfl
  exact ⟨rfl, h.2.1⟩

/-- C7: for every history mapping, saving it to the durable JSON shape and
reloading yields a mapping equal in content — same keys, same turn order,
same turn fields — to the mapping that was saved. -/
theorem history_round_trip (m : HistoryMap) :
    decodeHistory (encodeHistory m) = some m := by
  show optMapM _ (m.map fun p => (p.1, Json.arr (p.2.map encodeTurn))) = some m
  apply optMapM_map
  intro p _
  show (decodeConv (Json.arr (p.2.map encodeTurn))).map (fun ts => (p.1, ts)) = some p
  have hconv : decodeConv (Json.arr (p.2.map encodeTurn)) = some p.2 := by
    show optMapM decodeTurn (p.2.map encodeTurn) = some p.2
    exact optMapM_map decodeTurn encodeTurn p.2 fun t _ => decodeTurn_encodeTurn t
  rw [hconv]
  rfl

/-- C8: for every state of the durable storage location — absent, empty,
unreadable, or content that fails to decode — `load` returns normally (it
is a total function) and initializes the empty mapping. -/
theorem load_damaged_file_empty (fs : FileState)
    (h : fs = .absent ∨ fs = .unreadable ∨ fs = .empty ∨
      ∃ j, fs = .content j ∧ decodeHistory j = none) :
    load fs = [] := by
  rcases h with h | h | h | ⟨j, hj, hdec⟩
  · rw [h]; rfl
  · rw [h]; rfl
  · rw [h]; rfl
  · rw [hj]
    show (decodeHistory j).getD [] = []
    rw [hdec]
    rfl

/-- C8 witness: a concrete corrupt file — JSON content of the wrong shape —
loads as the empty mapping. -/
theorem load_damaged_file_empty_witness :
    (FileState.content (Json.str "garbage") = FileState.absent ∨
      FileState.content (Json.str "garbage") = FileState.unreadable ∨
      FileState.content (Json.str "garbage") = FileState.empty ∨
      ∃ j, FileState.content (Json.str "garbage") = FileState.content j ∧
        decodeHistory j = none) ∧
    load (FileState.content (Json.str "garbage")) = [] := by
  refine ⟨Or.inr (Or.inr (Or.inr ⟨Json.str "garbage", rfl, rfl⟩)), ?_⟩
  exact load_damaged_file_empty (FileState.content (Json.str "garbage"))
    (Or.inr (Or.inr (Or.inr ⟨Json.str "garbage", rfl, rfl⟩)))

/-- C9: `fuzzy_match` is total for all string inputs (it is a total
function) and its result always lies in `[0, 1]`; for every query whose
lowercased split is empty it returns `0` rather than dividing by zero. -/
theorem fuzzy_match_unit_interval (q t : String) :
    0 ≤ fuzzy_match q t ∧ fuzzy_match q t ≤ 1 ∧
      (splitWs (pyLower q) = [] → fuzzy_match q t = 0) := by
  unfold fuzzy_match
  by_cases hE : (splitWs (pyLower q)).isEmpty = true
  · simp [hE]
  · rw [if_neg hE]
    have hlen : 0 < (splitWs (pyLower q)).length := by
      cases hq : splitWs (pyLower q) with
      | nil => rw [hq] at hE; simp at hE
      | cons a l => simp
    have hlenQ : (0 : ℚ) < ((splitWs (pyLower q)).length : ℚ) := by exact_mod_cast hlen
    have hle : (((splitWs (pyLower q)).filter fun qw =>
        (splitWs (pyLower t)).any fun tw => strContains qw tw).length : ℚ)
        ≤ ((splitWs (pyLower q)).length : ℚ) := by
      exact_mod_cast List.length_filter_le _ (splitWs (pyLower q))
    refine ⟨div_nonneg (by positivity) (le_of_lt hlenQ), ?_, ?_⟩
    · rw [div_le_one hlenQ]
      exact hle
    · intro h0
      rw [h0] at hE
      simp at hE

/-- C9 witness: a whitespace-only query returns `0`, and a concrete
nonempty query gives a score inside `[0, 1]`. -/
theorem fuzzy_match_unit_interval_witness :
    (splitWs (pyLower "  ") = [] → fuzzy_match "  " "hello" = 0) ∧
    splitWs (pyLower "  ") = [] ∧ fuzzy_match "  " "hello" = 0 ∧
    0 ≤ fuzzy_match "key word" "keyboard words" ∧
    fuzzy_match "key word" "keyboard words" ≤ 1 := by
  have hmain := fuzzy_match_unit_interval "  " "hello"
  have hempty : splitWs (pyLower "  ") = [] := by decide
  have hother := fuzzy_match_unit_interval "key word" "keyboard words"
  exact ⟨hmain.2.2, hempty, hmain.2.2 hempty, hother.1, hother.2.1⟩

/-- C10: `sanitize_filename` is idempotent, every output character is a
word character, whitespace, or hyphen, and the output has no leading or
trailing whitespace. -/
theorem sanitize_filename_idempotent_charset (s : String) :
    sanitize_filename (sanitize_filename s) = sanitize_filename s ∧
    (∀ c ∈ (sanitize_filename s).data, keepChar c = true) ∧
    (∀ c, (sanitize_filename s).data.head? = some c → c.isWhitespace = false) ∧
    (∀ c, (sanitize_filename s).data.getLast? = some c → c.isWhitespace = false) := by
  refine ⟨?_, sanitize_all_keep s, ?_, ?_⟩
  · show String.mk (stripChars ((sanitize_filename s).data.filter keepChar)) = sanitize_filename s
    rw [List.filter_eq_self.mpr (sanitize_all_keep s), sanitize_data, stripChars_idem]
    rfl
  · intro c hc
    rw [sanitize_data] at hc
    exact stripChars_headOK _ c hc
  · intro c hc
    rw [sanitize_data] at hc
    exact stripChars_lastOK _ c hc

/-- C10 witness: a concrete messy input sanitizes to `"hello-w_1"`, which
is a fixed point whose first and last characters are not whitespace. -/
theorem sanitize_filename_idempotent_charset_witness :
    sanitize_filename (sanitize_filename "  he*llo-w_1  ") = sanitize_filename "  he*llo-w_1  " ∧
    ((sanitize_filename "  he*llo-w_1  ").data.head? = some 'h' → Char.isWhitespace 'h' = false) ∧
    (sanitize_filename "  he*llo-w_1  ").data.head? = some 'h' ∧
    ((sanitize_filename "  he*llo-w_1  ").data.getLast? = some '1' → Char.isWhitespace '1' = false) ∧
    (sanitize_filename "  he*llo-w_1  ").data.getLast? = some '1' := by
  have hmain := sanitize_filename_idempotent_charset "  he*llo-w_1  "
  have hh : (sanitize_filename "  he*llo-w_1  ").data.head? = some 'h' := by decide
  have hl : (sanitize_filename "  he*llo-w_1  ").data.getLast? = some '1' := by decide
  exact ⟨hmain.1, fun h => hmain.2.2.1 'h' h, hh, fun h => hmain.2.2.2 '1' h, hl⟩
